import Mathlib

/-!
Verification of the Onboardbase external-secrets client
(`pkg/provider/onboardbase/client/client.go` and its caller
`pkg/provider/onboardbase/provider.go`).

Modelling conventions:
* Go maps (`map[string]string`, used for `Secrets`, `headers` and
  `queryParams`) are modelled as association lists with unique keys:
  assignment removes any existing binding for the key and appends the new
  one, so lookup and cardinality agree with Go map semantics (iteration
  order of a Go map is unspecified and the client never observes it).
* External library calls — AES decryption (`aesdecrypt.Run`), JSON
  (un)marshalling (`encoding/json`), URL parsing (`net/url`) and the HTTP
  exchange itself — are parameters of the definitions that use them, each
  returning `Except` to model Go's `(value, error)` returns.
* Pointer copying in `BaseURL` is modelled with an explicit heap of URL
  values addressed by `Nat` references.
-/

namespace Onboardbase

/-- Go map assignment `m[k] = v` on the association-list representation:
drop any existing binding of `k`, then bind `k` to `v`. -/
def setKV (m : List (String × String)) (k v : String) : List (String × String) :=
  m.filter (fun p => p.1 != k) ++ [(k, v)]

/-- Go map lookup returning `none` when the key is absent. -/
def lookup? (m : List (String × String)) (k : String) : Option String :=
  (m.find? (fun p => p.1 == k)).map (fun p => p.2)

/-- Go map read `m[k]`: yields the zero value `""` when the key is absent
(this is exactly how `GetSecret` observes a missing secret). -/
def lookupKV (m : List (String × String)) (k : String) : String :=
  (lookup? m k).getD ""

/-- A sequence of Go map assignments, one per pair, in list order
(models `for key, value := range headers { req.Header.Set(key, value) }`
and the accumulation of decrypted records into the `kv` map). -/
def setAll (m : List (String × String)) (l : List (String × String)) : List (String × String) :=
  l.foldl (fun acc p => setKV acc p.1 p.2) m

theorem lookup?_setKV_self (m : List (String × String)) (k v : String) :
    lookup? (setKV m k v) k = some v := by
  unfold setKV lookup?
  rw [List.find?_append]
  have hnone : (m.filter (fun p => p.1 != k)).find? (fun p => p.1 == k) = none := by
    rw [List.find?_eq_none]
    intro p hp
    have := List.of_mem_filter hp
    simp only [bne_iff_ne, ne_eq] at this
    simp [this]
  simp [hnone, List.find?]

theorem lookup?_setKV_ne (m : List (String × String)) (k v k' : String) (h : k' ≠ k) :
    lookup? (setKV m k v) k' = lookup? m k' := by
  have hkk : (k == k') = false := by
    simp only [beq_eq_false_iff_ne, ne_eq]
    exact fun hk => h hk.symm
  unfold setKV lookup?
  rw [List.find?_append]
  have htail : List.find? (fun p => p.1 == k') [(k, v)] = none := by
    simp [List.find?_cons, hkk, List.find?]
  have hfilter : (m.filter (fun p => p.1 != k)).find? (fun p => p.1 == k') =
      m.find? (fun p => p.1 == k') := by
    induction m with
    | nil => rfl
    | cons p t ih =>
      by_cases hp : p.1 = k
      · have hb : (p.1 != k) = false := by simp [hp]
        have hp1 : (p.1 == k') = false := by rw [hp]; exact hkk
        simp [List.filter_cons, hb, List.find?_cons, hp1, ih]
      · have hb : (p.1 != k) = true := by simp [hp]
        rw [List.filter_cons]
        simp only [hb, if_true]
        rw [List.find?_cons, List.find?_cons]
        cases hpk : (p.1 == k') with
        | true => rfl
        | false => exact ih
  rw [hfilter, htail, Option.or_none]

theorem length_setKV_le (m : List (String × String)) (k v : String) :
    (setKV m k v).length ≤ m.length + 1 := by
  unfold setKV
  rw [List.length_append]
  have := List.length_filter_le (fun p => p.1 != k) m
  simpa using Nat.add_le_add_right this 1

theorem setKV_of_not_mem (m : List (String × String)) (k v : String)
    (h : k ∉ m.map Prod.fst) : setKV m k v = m ++ [(k, v)] := by
  unfold setKV
  congr 1
  apply List.filter_eq_self.mpr
  intro p hp
  have : p.1 ≠ k := fun he => h (he ▸ List.mem_map_of_mem Prod.fst hp)
  simpa using this

theorem length_setKV_not_mem (m : List (String × String)) (k v : String)
    (h : k ∉ m.map Prod.fst) : (setKV m k v).length = m.length + 1 := by
  rw [setKV_of_not_mem m k v h]
  simp

theorem setAll_cons (m : List (String × String)) (p : String × String)
    (l : List (String × String)) :
    setAll m (p :: l) = setAll (setKV m p.1 p.2) l := rfl

theorem setAll_append (m l₁ l₂ : List (String × String)) :
    setAll m (l₁ ++ l₂) = setAll (setAll m l₁) l₂ :=
  List.foldl_append _ _ _ _

/-- The value observed for `k` after a sequence of assignments is the value
of the LAST assignment to `k`, falling back to the original map. -/
theorem lookup?_setAll (m l : List (String × String)) (k : String) :
    lookup? (setAll m l) k =
      ((l.reverse.find? (fun p => p.1 == k)).map (fun p => p.2)).or (lookup? m k) := by
  induction l generalizing m with
  | nil => rfl
  | cons p t ih =>
    rw [setAll_cons, ih]
    rw [List.reverse_cons, List.find?_append]
    cases hfind : t.reverse.find? (fun p => p.1 == k) with
    | some r => simp [hfind]
    | none =>
      simp only [hfind, Option.none_or, Option.map_none]
      by_cases hpk : p.1 = k
      · have : List.find? (fun q => q.1 == k) [p] = some p := by
          simp [List.find?_cons, hpk]
        rw [this]
        subst hpk
        simp [lookup?_setKV_self]
      · have : List.find? (fun q => q.1 == k) [p] = none := by
          simp [List.find?_cons, hpk]
        rw [this]
        exact lookup?_setKV_ne m p.1 p.2 k (fun he => hpk he.symm)

theorem lookup?_setAll_not_mem (m l : List (String × String)) (k : String)
    (h : k ∉ l.map Prod.fst) : lookup? (setAll m l) k = lookup? m k := by
  rw [lookup?_setAll]
  have hnone : l.reverse.find? (fun p => p.1 == k) = none := by
    rw [List.find?_eq_none]
    intro p hp
    have hmem : p.1 ∈ l.map Prod.fst :=
      List.mem_map_of_mem Prod.fst (List.mem_reverse.mp hp)
    simp only [beq_eq_false_iff_ne, ne_eq, beq_iff_eq]
    exact fun he => h (he ▸ hmem)
  rw [hnone]
  rfl

theorem lookup?_setAll_last (m l : List (String × String)) (k v : String) :
    lookup? (setAll m (l ++ [(k, v)])) k = some v := by
  rw [setAll_append, setAll_cons]
  have : setAll (setKV (setAll m l) k v) [] = setKV (setAll m l) k v := rfl
  rw [this, lookup?_setKV_self]

theorem length_setAll_le (m l : List (String × String)) :
    (setAll m l).length ≤ m.length + l.length := by
  induction l generalizing m with
  | nil => simp [setAll]
  | cons p t ih =>
    rw [setAll_cons]
    calc (setAll (setKV m p.1 p.2) t).length
        ≤ (setKV m p.1 p.2).length + t.length := ih _
      _ ≤ (m.length + 1) + t.length :=
          Nat.add_le_add_right (length_setKV_le m p.1 p.2) t.length
      _ = m.length + (p :: t).length := by simp [Nat.add_assoc, Nat.add_comm 1]

theorem keys_setKV_not_mem (m : List (String × String)) (k v : String)
    (h : k ∉ m.map Prod.fst) :
    (setKV m k v).map Prod.fst = m.map Prod.fst ++ [k] := by
  rw [setKV_of_not_mem m k v h, List.map_append]
  rfl

/-- When the assigned keys are pairwise distinct and fresh with respect to the
starting map, each assignment adds exactly one entry. -/
theorem length_setAll_nodup (m l : List (String × String))
    (hnd : (l.map Prod.fst).Nodup) (hfresh : ∀ p ∈ l, p.1 ∉ m.map Prod.fst) :
    (setAll m l).length = m.length + l.length := by
  induction l generalizing m with
  | nil => simp [setAll]
  | cons p t ih =>
    rw [setAll_cons]
    have hp : p.1 ∉ m.map Prod.fst := hfresh p (List.mem_cons_self p t)
    have hcons := List.nodup_cons.mp
      (show (p.1 :: t.map Prod.fst).Nodup from by simpa using hnd)
    have hhead : p.1 ∉ t.map Prod.fst := hcons.1
    have hnd' : (t.map Prod.fst).Nodup := hcons.2
    have hfresh' : ∀ q ∈ t, q.1 ∉ (setKV m p.1 p.2).map Prod.fst := by
      intro q hq
      rw [keys_setKV_not_mem m p.1 p.2 hp]
      intro hmem
      rcases List.mem_append.mp hmem with hin | hin
      · exact hfresh q (List.mem_cons_of_mem p hq) hin
      · have : q.1 = p.1 := by simpa using hin
        exact hhead (this ▸ List.mem_map_of_mem Prod.fst hq)
    rw [ih (setKV m p.1 p.2) hnd' hfresh', length_setKV_not_mem m p.1 p.2 hp]
    simp [Nat.add_assoc, Nat.add_comm 1]

/-! ## Data model (`client.go` type declarations) -/

/-- `RawSecret`: the plaintext JSON body of one decrypted envelope. -/
structure RawSecret where
  key : String
  value : String
deriving DecidableEq

/-- `APIError`: the single error type surfaced by the client.  Go's `Err
error` field is `none` when `nil`, otherwise the wrapped error's message. -/
structure APIError where
  err : Option String
  message : String
  data : String
deriving DecidableEq

/-- `apiResponse`: status code of the HTTP response plus the body bytes
already read (the `*http.Response` itself is external state). -/
structure ApiResponse where
  statusCode : Int
  body : String
deriving DecidableEq

/-- `apiErrorResponse`: the JSON error envelope of the remote API. -/
structure ApiErrorResponse where
  messages : List String
  success : Bool
deriving DecidableEq

/-- `SecretRequest`. -/
structure SecretRequest where
  environment : String
  project : String
  name : String
deriving DecidableEq

/-- `SecretsRequest`. -/
structure SecretsRequest where
  environment : String
  project : String
deriving DecidableEq

/-- `secretResponseBodyObject`. -/
structure SecretResponseBodyObject where
  title : String
  id : String
deriving DecidableEq

/-- `secretResponseBodyData`: carries the list of encrypted envelopes. -/
structure SecretResponseBodyData where
  project : SecretResponseBodyObject
  environment : SecretResponseBodyObject
  team : SecretResponseBodyObject
  secrets : List String
deriving DecidableEq

/-- `secretResponseBody`: the JSON envelope of `GET /secrets`. -/
structure SecretResponseBody where
  data : SecretResponseBodyData
  message : String
  status : String
deriving DecidableEq

/-- `SecretResponse`. -/
structure SecretResponse where
  name : String
  value : String
deriving DecidableEq

/-- `SecretsResponse`. -/
structure SecretsResponse where
  secrets : List (String × String)
  body : String
deriving DecidableEq

/-- `net/url.URL` value, trimmed to the fields the client populates. -/
structure GoURL where
  scheme : String
  host : String
  path : String
deriving DecidableEq

/-- `OnboardbaseClient`: the client configuration.  `baseURL` is `none`
until `SetBaseURL` has run (a nil pointer in Go); the `http.Client` and its
TLS transport are external. -/
structure OnboardbaseClient where
  baseURL : Option GoURL
  onboardbaseAPIKey : String
  verifyTLS : Bool
  userAgent : String
  onboardbasePassCode : String
deriving DecidableEq

/-! ## Operations (`client.go` functions) -/

/-- `strings.TrimSuffix`: drop `suf` from the end of `s` when present. -/
def trimSuffix (s suf : String) : String :=
  if s.endsWith suf then s.dropRight suf.length else s

/-- `SetBaseURL` (client.go:150-163), parameterised by `net/url.Parse`. -/
def SetBaseURL (parseURL : String → Except String GoURL)
    (c : OnboardbaseClient) (urlStr : String) : Except String OnboardbaseClient :=
  match parseURL (trimSuffix urlStr "/") with
  | .error e => .error e
  | .ok baseURL =>
    let baseURL := if baseURL.scheme = "" then { baseURL with scheme := "https" } else baseURL
    .ok { c with baseURL := some baseURL }

/-- `NewOnboardbaseClient` (client.go:116-143): builds the configuration and
sets the constant base URL.  No validation of the credentials happens here;
the two strings are stored as given. -/
def NewOnboardbaseClient (parseURL : String → Except String GoURL)
    (onboardbaseAPIKey onboardbasePasscode : String) : Except APIError OnboardbaseClient :=
  let client : OnboardbaseClient :=
    { baseURL := none
      onboardbaseAPIKey := onboardbaseAPIKey
      onboardbasePassCode := onboardbasePasscode
      verifyTLS := true
      userAgent := "onboardbase-external-secrets" }
  match SetBaseURL parseURL client "https://public.onboardbase.com/api/v1/" with
  | .error e => .error { err := some e, message := "setting base URL failed", data := "" }
  | .ok c => .ok c

/-- `isSuccess` (client.go:336-338). -/
def isSuccess (statusCode : Int) : Bool :=
  (decide (200 ≤ statusCode) && decide (statusCode ≤ 299)) ||
  (decide (300 ≤ statusCode) && decide (statusCode ≤ 399))

/-- Outcome classification at the tail of `performRequest`
(client.go:315-333), after the body was read successfully: `statusCode` and
`contentType` come from the HTTP response, `body` is the fully read body,
and `unmarshalErrorBody` stands for `json.Unmarshal` into
`apiErrorResponse`.  The non-JSON failure branch reports only the status
code and the byte length of the body. -/
def classifyResponse (unmarshalErrorBody : String → Except String ApiErrorResponse)
    (statusCode : Int) (contentType : String) (body : String) :
    Except APIError ApiResponse :=
  let response : ApiResponse := { statusCode := statusCode, body := body }
  if isSuccess statusCode then
    .ok response
  else
    if contentType.startsWith "application/json" then
      match unmarshalErrorBody body with
      | .error e =>
        .error { err := some e, message := "unable to unmarshal error JSON payload", data := "" }
      | .ok errResponse =>
        .error { err := none, message := String.intercalate "\n" errResponse.messages, data := "" }
    else
      .error { err := some (toString statusCode ++ " status code; " ++
                 toString body.utf8ByteSize ++ " bytes"),
               message := "unable to load response", data := "" }

/-- Header assembly in `performRequest` (client.go:283-295): defaults first
(`content-type` for POST when unset, `accept` when unset, then `user-agent`
and `api_key`), and only afterwards the caller-supplied headers, one
`Header.Set` per pair.  Keys are taken in Go's canonical form. -/
def buildRequestHeaders (method userAgent apiKey : String)
    (callerHeaders : List (String × String)) : List (String × String) :=
  let h : List (String × String) := []
  let h := if method = "POST" ∧ lookupKV h "content-type" = "" then
    setKV h "content-type" "application/json" else h
  let h := if lookupKV h "accept" = "" then setKV h "accept" "application/json" else h
  let h := setKV h "user-agent" userAgent
  let h := setKV h "api_key" apiKey
  setAll h callerHeaders

/-- The `for _, secret := range data.Secrets` loop of
`getSecretsFromPayload` (client.go:176-187), with the accumulated `kv` map
made explicit.  `run` stands for `aesdecrypt.Run` and `unmarshalRawSecret`
for `json.Unmarshal` into `RawSecret`. -/
def decryptLoop (run : String → String → Except String String)
    (unmarshalRawSecret : String → Except String RawSecret)
    (passCode : String) :
    List String → List (String × String) → Except APIError (List (String × String))
  | [], kv => .ok kv
  | secret :: rest, kv =>
    match run secret passCode with
    | .error e =>
      .error { err := some e, message := "unable to decrypt secret payload", data := secret }
    | .ok decrypted =>
      match unmarshalRawSecret decrypted with
      | .error e =>
        .error { err := some e, message := "unable to unmarshal secret payload", data := decrypted }
      | .ok decryptedJSON =>
        decryptLoop run unmarshalRawSecret passCode rest
          (setKV kv decryptedJSON.key decryptedJSON.value)

/-- `getSecretsFromPayload` (client.go:174-189). -/
def getSecretsFromPayload (run : String → String → Except String String)
    (unmarshalRawSecret : String → Except String RawSecret)
    (passCode : String) (data : SecretResponseBodyData) :
    Except APIError (List (String × String)) :=
  decryptLoop run unmarshalRawSecret passCode data.secrets []

/-- `SecretsRequest.buildQueryParams` (client.go:233-246). -/
def SecretsRequest.buildQueryParams (r : SecretsRequest) : List (String × String) :=
  let params : List (String × String) := []
  let params := if r.project ≠ "" then setKV params "project" r.project else params
  let params := if r.environment ≠ "" then setKV params "environment" r.environment else params
  params

/-- `SecretRequest.buildQueryParams` (client.go:249-262). -/
def SecretRequest.buildQueryParams (r : SecretRequest) : List (String × String) :=
  let params : List (String × String) := []
  let params := if r.project ≠ "" then setKV params "project" r.project else params
  let params := if r.environment ≠ "" then setKV params "environment" r.environment else params
  params

/-- `GetSecret` (client.go:191-212).  `performRequest` abstracts the whole
HTTP exchange for the built query parameters; `unmarshalBody` is
`json.Unmarshal` into `secretResponseBody`.  Note that the error of
`getSecretsFromPayload` is discarded (`secrets, _ := ...`), leaving the nil
map — modelled by the empty list — on failure. -/
def GetSecret (run : String → String → Except String String)
    (unmarshalRawSecret : String → Except String RawSecret)
    (passCode : String)
    (performRequest : List (String × String) → Except APIError ApiResponse)
    (unmarshalBody : String → Except String SecretResponseBody)
    (request : SecretRequest) : Except APIError SecretResponse :=
  let params := SecretRequest.buildQueryParams request
  match performRequest params with
  | .error e => .error e
  | .ok response =>
    match unmarshalBody response.body with
    | .error e =>
      .error { err := some e, message := "unable to unmarshal secret payload",
               data := response.body }
    | .ok data =>
      let secrets := match getSecretsFromPayload run unmarshalRawSecret passCode data.data with
        | .ok kv => kv
        | .error _ => []
      let secret := lookupKV secrets request.name
      if secret = "" then
        .error { err := none,
                 message := "secret " ++ request.name ++ " for project \x27" ++
                   request.project ++ "\x27 and environment \x27" ++
                   request.environment ++ "\x27 not found",
                 data := "" }
      else
        .ok { name := request.name, value := lookupKV secrets request.name }

/-- `GetSecrets` (client.go:214-231).  As in `GetSecret`, the error of
`getSecretsFromPayload` is discarded, so a failed decode yields a success
result carrying the nil map. -/
def GetSecrets (run : String → String → Except String String)
    (unmarshalRawSecret : String → Except String RawSecret)
    (passCode : String)
    (performRequest : List (String × String) → Except APIError ApiResponse)
    (unmarshalBody : String → Except String SecretResponseBody)
    (request : SecretsRequest) : Except APIError SecretsResponse :=
  let params := SecretsRequest.buildQueryParams request
  match performRequest params with
  | .error apiErr => .error apiErr
  | .ok response =>
    match unmarshalBody response.body with
    | .error e =>
      .error { err := some e, message := "unable to unmarshal secret payload",
               data := response.body }
    | .ok data =>
      let secrets := match getSecretsFromPayload run unmarshalRawSecret passCode data.data with
        | .ok kv => kv
        | .error _ => []
      .ok { secrets := secrets, body := response.body }

/-! ## Heap model for the `BaseURL` accessor (client.go:145-148)

`BaseURL` dereferences the client's `*url.URL`, copies the value into a
fresh allocation and returns a pointer to the copy.  The heap of URL values
is explicit: cells addressed by `Nat`. -/

/-- The mutable store of `url.URL` values. -/
structure URLHeap where
  cells : List GoURL
deriving DecidableEq

/-- Pointer dereference; `none` models a nil or dangling pointer. -/
def readCell (h : URLHeap) (r : Nat) : Option GoURL :=
  h.cells[r]?

/-- Assignment through a pointer. -/
def writeCell (h : URLHeap) (r : Nat) (u : GoURL) : URLHeap :=
  ⟨h.cells.set r u⟩

/-- A client together with the heap holding its `baseURL` target. -/
structure ClientHeapState where
  heap : URLHeap
  baseURLRef : Nat
deriving DecidableEq

/-- `BaseURL` (client.go:145-148): `u := *c.baseURL; return &u` — read the
pointee, allocate a fresh cell holding the copy, return its address. -/
def BaseURL (s : ClientHeapState) : ClientHeapState × Nat :=
  match readCell s.heap s.baseURLRef with
  | some u => (⟨⟨s.heap.cells ++ [u]⟩, s.baseURLRef⟩, s.heap.cells.length)
  | none => (s, s.baseURLRef)

/-! ## Behaviour of the decryption loop -/

/-- Envelope `envelope` decrypts (under `passCode`) to a plaintext whose
JSON body is the record `r`. -/
def decodesTo (run : String → String → Except String String)
    (unmarshalRawSecret : String → Except String RawSecret)
    (passCode envelope : String) (r : RawSecret) : Prop :=
  ∃ pt, run envelope passCode = .ok pt ∧ unmarshalRawSecret pt = .ok r

/-- The key-value pairs of a list of decrypted records. -/
def recordPairs (rs : List RawSecret) : List (String × String) :=
  rs.map (fun r => (r.key, r.value))

/-- The map built by assigning each decrypted record in order into an empty
Go map. -/
def buildMap (rs : List RawSecret) : List (String × String) :=
  setAll [] (recordPairs rs)

theorem decryptLoop_append (run : String → String → Except String String)
    (unmarshalRawSecret : String → Except String RawSecret) (passCode : String)
    {es : List String} {rs : List RawSecret}
    (hall : List.Forall₂ (decodesTo run unmarshalRawSecret passCode) es rs)
    (rest : List String) (kv : List (String × String)) :
    decryptLoop run unmarshalRawSecret passCode (es ++ rest) kv =
      decryptLoop run unmarshalRawSecret passCode rest (setAll kv (recordPairs rs)) := by
  induction hall generalizing kv with
  | nil => rfl
  | cons hd tl ih =>
    obtain ⟨pt, hrun, hum⟩ := hd
    rw [List.cons_append]
    simp only [decryptLoop, hrun, hum, recordPairs, List.map_cons]
    rw [setAll_cons]
    exact ih (setKV kv _ _)

theorem decryptLoop_ok (run : String → String → Except String String)
    (unmarshalRawSecret : String → Except String RawSecret) (passCode : String)
    {es : List String} {rs : List RawSecret}
    (hall : List.Forall₂ (decodesTo run unmarshalRawSecret passCode) es rs)
    (kv : List (String × String)) :
    decryptLoop run unmarshalRawSecret passCode es kv = .ok (setAll kv (recordPairs rs)) := by
  have h := decryptLoop_append run unmarshalRawSecret passCode hall [] kv
  rw [List.append_nil] at h
  exact h

theorem getSecretsFromPayload_ok (run : String → String → Except String String)
    (unmarshalRawSecret : String → Except String RawSecret) (passCode : String)
    (data : SecretResponseBodyData) {rs : List RawSecret}
    (hall : List.Forall₂ (decodesTo run unmarshalRawSecret passCode) data.secrets rs) :
    getSecretsFromPayload run unmarshalRawSecret passCode data = .ok (buildMap rs) :=
  decryptLoop_ok run unmarshalRawSecret passCode hall []

theorem length_buildMap_le (rs : List RawSecret) : (buildMap rs).length ≤ rs.length := by
  have := length_setAll_le [] (recordPairs rs)
  simpa [recordPairs] using this

theorem length_buildMap_nodup (rs : List RawSecret)
    (hnd : (rs.map RawSecret.key).Nodup) : (buildMap rs).length = rs.length := by
  have hkeys : (recordPairs rs).map Prod.fst = rs.map RawSecret.key := by
    simp [recordPairs]
  have := length_setAll_nodup [] (recordPairs rs) (by rw [hkeys]; exact hnd)
    (by intro p _ hmem; simp at hmem)
  simpa [recordPairs] using this

theorem find?_eq_of_nodup_keys (l : List (String × String)) (k v : String)
    (hnd : (l.map Prod.fst).Nodup) (hmem : (k, v) ∈ l) :
    l.find? (fun p => p.1 == k) = some (k, v) := by
  induction l with
  | nil => cases hmem
  | cons p t ih =>
    rw [List.map_cons] at hnd
    have hcons := List.nodup_cons.mp hnd
    by_cases hpk : p.1 = k
    · have hpv : p = (k, v) := by
        rcases List.mem_cons.mp hmem with he | hin
        · exact he.symm
        · exact absurd (hpk ▸ List.mem_map_of_mem Prod.fst hin :
            p.1 ∈ t.map Prod.fst) (by simpa [hpk] using hcons.1)
      rw [List.find?_cons]
      simp [hpk, hpv]
    · have hin : (k, v) ∈ t := by
        rcases List.mem_cons.mp hmem with he | hin
        · exact absurd (congrArg Prod.fst he.symm) hpk
        · exact hin
      have hb : (p.1 == k) = false := by simp [hpk]
      simp only [List.find?_cons, hb]
      exact ih hcons.2 hin

theorem lookup?_buildMap (rs : List RawSecret) (k : String) :
    lookup? (buildMap rs) k =
      (rs.reverse.find? (fun r => r.key == k)).map (fun r => r.value) := by
  unfold buildMap
  rw [lookup?_setAll]
  have hrev : (recordPairs rs).reverse = recordPairs rs.reverse := by
    simp [recordPairs, List.map_reverse]
  rw [hrev]
  unfold recordPairs
  rw [List.find?_map]
  have hcomp : ((fun p : String × String => p.1 == k) ∘ fun r : RawSecret => (r.key, r.value)) =
      fun r : RawSecret => r.key == k := rfl
  rw [hcomp]
  cases rs.reverse.find? (fun r => r.key == k) with
  | none => rfl
  | some r => rfl

theorem lookup?_buildMap_nodup (rs : List RawSecret) (r : RawSecret)
    (hnd : (rs.map RawSecret.key).Nodup) (hmem : r ∈ rs) :
    lookup? (buildMap rs) r.key = some r.value := by
  unfold buildMap
  rw [lookup?_setAll]
  have hknd : ((recordPairs rs).reverse.map Prod.fst).Nodup := by
    have : (recordPairs rs).map Prod.fst = rs.map RawSecret.key := by simp [recordPairs]
    rw [List.map_reverse, this]
    exact List.nodup_reverse.mpr hnd
  have hpmem : (r.key, r.value) ∈ (recordPairs rs).reverse :=
    List.mem_reverse.mpr (List.mem_map_of_mem (fun r => (r.key, r.value)) hmem)
  rw [find?_eq_of_nodup_keys _ r.key r.value hknd hpmem]
  rfl

/-! ## Claim theorems -/

/-- C4: the classification at the tail of `performRequest` treats an HTTP
response as success exactly when its status code lies in [200,399]
inclusive: `isSuccess` decides exactly that range, and `classifyResponse`
returns a success result exactly when `isSuccess` holds — every status in
the range (3xx included) takes the success path, every status outside it
takes the error path. -/
theorem c4_isSuccess_range (s : Int)
    (unmarshalErrorBody : String → Except String ApiErrorResponse)
    (contentType body : String) :
    (isSuccess s = decide (200 ≤ s ∧ s ≤ 399)) ∧
    ((classifyResponse unmarshalErrorBody s contentType body).isOk = isSuccess s) := by
  constructor
  · have hiff : ((200 ≤ s ∧ s ≤ 299) ∨ (300 ≤ s ∧ s ≤ 399)) ↔ (200 ≤ s ∧ s ≤ 399) := by
      omega
    have h1 : isSuccess s = decide ((200 ≤ s ∧ s ≤ 299) ∨ (300 ≤ s ∧ s ≤ 399)) := by
      unfold isSuccess
      rw [Bool.decide_or, Bool.decide_and, Bool.decide_and]
    rw [h1, decide_eq_decide]
    exact hiff
  · cases hs : isSuccess s with
    | true => simp [classifyResponse, hs, Except.isOk, Except.toBool]
    | false =>
      by_cases hct : contentType.startsWith "application/json"
      · cases hub : unmarshalErrorBody body <;>
          simp [classifyResponse, hs, hct, hub, Except.isOk, Except.toBool]
      · simp [classifyResponse, hs, hct, Except.isOk, Except.toBool]

theorem secretRequest_buildQueryParams_eq (r : SecretRequest) :
    SecretRequest.buildQueryParams r =
      (if r.project = "" then [] else [("project", r.project)]) ++
      (if r.environment = "" then [] else [("environment", r.environment)]) := by
  unfold SecretRequest.buildQueryParams
  by_cases hp : r.project = "" <;> by_cases he : r.environment = "" <;>
    simp [hp, he, setKV]

theorem secretsRequest_buildQueryParams_eq (r : SecretsRequest) :
    SecretsRequest.buildQueryParams r =
      (if r.project = "" then [] else [("project", r.project)]) ++
      (if r.environment = "" then [] else [("environment", r.environment)]) := by
  unfold SecretsRequest.buildQueryParams
  by_cases hp : r.project = "" <;> by_cases he : r.environment = "" <;>
    simp [hp, he, setKV]

/-- C6: for both request types, `buildQueryParams` omits the `project`
parameter when `Project` is empty and the `environment` parameter when
`Environment` is empty; a non-empty value is included under the key
`project` resp. `environment`; and no parameter is ever sent with an empty
value. -/
theorem c6_buildQueryParams_omits_empty (r : SecretRequest) (q : SecretsRequest) :
    ((r.project = "" → "project" ∉ (SecretRequest.buildQueryParams r).map Prod.fst) ∧
     (r.project ≠ "" → lookup? (SecretRequest.buildQueryParams r) "project" = some r.project) ∧
     (r.environment = "" → "environment" ∉ (SecretRequest.buildQueryParams r).map Prod.fst) ∧
     (r.environment ≠ "" →
       lookup? (SecretRequest.buildQueryParams r) "environment" = some r.environment) ∧
     (∀ p ∈ SecretRequest.buildQueryParams r, p.2 ≠ "")) ∧
    ((q.project = "" → "project" ∉ (SecretsRequest.buildQueryParams q).map Prod.fst) ∧
     (q.project ≠ "" → lookup? (SecretsRequest.buildQueryParams q) "project" = some q.project) ∧
     (q.environment = "" → "environment" ∉ (SecretsRequest.buildQueryParams q).map Prod.fst) ∧
     (q.environment ≠ "" →
       lookup? (SecretsRequest.buildQueryParams q) "environment" = some q.environment) ∧
     (∀ p ∈ SecretsRequest.buildQueryParams q, p.2 ≠ "")) := by
  rw [secretRequest_buildQueryParams_eq, secretsRequest_buildQueryParams_eq]
  constructor
  · by_cases hp : r.project = "" <;> by_cases he : r.environment = "" <;>
      refine ⟨?_, ?_, ?_, ?_, ?_⟩ <;> simp_all [lookup?, List.find?]
  · by_cases hp : q.project = "" <;> by_cases he : q.environment = "" <;>
      refine ⟨?_, ?_, ?_, ?_, ?_⟩ <;> simp_all [lookup?, List.find?]

/-- C5: on a non-success response whose content type is not JSON,
`performRequest` fails with the generic rejection error whose diagnostic
content is exactly the status code and the body's byte length; two bodies
of the same byte length yield identical errors, so the body content itself
never appears. -/
theorem c5_non_json_error_is_opaque
    (unmarshalErrorBody : String → Except String ApiErrorResponse)
    (s : Int) (contentType bodyA bodyB : String)
    (hs : isSuccess s = false)
    (hct : contentType.startsWith "application/json" = false)
    (hlen : bodyA.utf8ByteSize = bodyB.utf8ByteSize) :
    classifyResponse unmarshalErrorBody s contentType bodyA =
      .error { err := some (toString s ++ " status code; " ++
                 toString bodyA.utf8ByteSize ++ " bytes"),
               message := "unable to load response", data := "" } ∧
    classifyResponse unmarshalErrorBody s contentType bodyA =
      classifyResponse unmarshalErrorBody s contentType bodyB := by
  have hA : classifyResponse unmarshalErrorBody s contentType bodyA =
      .error { err := some (toString s ++ " status code; " ++
                 toString bodyA.utf8ByteSize ++ " bytes"),
               message := "unable to load response", data := "" } := by
    simp [classifyResponse, hs, hct]
  have hB : classifyResponse unmarshalErrorBody s contentType bodyB =
      .error { err := some (toString s ++ " status code; " ++
                 toString bodyB.utf8ByteSize ++ " bytes"),
               message := "unable to load response", data := "" } := by
    simp [classifyResponse, hs, hct]
  refine ⟨hA, ?_⟩
  rw [hA, hB, hlen]

/-- C2: when the HTTP exchange and the JSON parse of the response body
succeed but the requested name is absent from the decrypted map (or its
decrypted value is the empty string — both observed as the zero value
`""`), `GetSecret` fails with the not-found `APIError` whose message names
the secret, project and environment; and `GetSecret` never returns a
success result carrying an empty value. -/
theorem c2_getSecret_notFound (run : String → String → Except String String)
    (unmarshalRawSecret : String → Except String RawSecret) (passCode : String)
    (performRequest : List (String × String) → Except APIError ApiResponse)
    (unmarshalBody : String → Except String SecretResponseBody)
    (request : SecretRequest) :
    (∀ (response : ApiResponse) (data : SecretResponseBody)
       (kv : List (String × String)),
       performRequest (SecretRequest.buildQueryParams request) = .ok response →
       unmarshalBody response.body = .ok data →
       getSecretsFromPayload run unmarshalRawSecret passCode data.data = .ok kv →
       lookupKV kv request.name = "" →
       GetSecret run unmarshalRawSecret passCode performRequest unmarshalBody request =
         .error { err := none,
                  message := "secret " ++ request.name ++ " for project \x27" ++
                    request.project ++ "\x27 and environment \x27" ++
                    request.environment ++ "\x27 not found",
                  data := "" }) ∧
    (∀ out : SecretResponse,
       GetSecret run unmarshalRawSecret passCode performRequest unmarshalBody request =
         .ok out → out.value ≠ "") := by
  constructor
  · intro response data kv hperf hub hsp hlook
    simp only [GetSecret, hperf, hub, hsp]
    rw [if_pos hlook]
  · intro out hout
    simp only [GetSecret] at hout
    cases hperf : performRequest (SecretRequest.buildQueryParams request) with
    | error e => rw [hperf] at hout; cases hout
    | ok response =>
      rw [hperf] at hout
      dsimp only at hout
      cases hub : unmarshalBody response.body with
      | error e => rw [hub] at hout; cases hout
      | ok data =>
        rw [hub] at hout
        dsimp only at hout
        split at hout
        · cases hout
        · rename_i hne
          have hval : out.value = lookupKV
              (match getSecretsFromPayload run unmarshalRawSecret passCode data.data with
               | .ok kv => kv
               | .error _ => []) request.name := by
            cases hout
            rfl
          rw [hval]
          exact hne

/-- C7: when the backend payload parses and its N envelopes decrypt to N
records with pairwise-distinct keys, `GetSecrets` returns a success result
whose mapping has exactly N entries, each decrypted key bound to its
decrypted value (for N = 0 this is a success carrying the empty mapping,
not an error). -/
theorem c7_getSecrets_exact_mapping (run : String → String → Except String String)
    (unmarshalRawSecret : String → Except String RawSecret) (passCode : String)
    (performRequest : List (String × String) → Except APIError ApiResponse)
    (unmarshalBody : String → Except String SecretResponseBody)
    (request : SecretsRequest) (response : ApiResponse)
    (data : SecretResponseBody) (rs : List RawSecret)
    (hperf : performRequest (SecretsRequest.buildQueryParams request) = .ok response)
    (hub : unmarshalBody response.body = .ok data)
    (hall : List.Forall₂ (decodesTo run unmarshalRawSecret passCode) data.data.secrets rs)
    (hnd : (rs.map RawSecret.key).Nodup) :
    GetSecrets run unmarshalRawSecret passCode performRequest unmarshalBody request =
      .ok { secrets := buildMap rs, body := response.body } ∧
    (buildMap rs).length = data.data.secrets.length ∧
    (∀ r ∈ rs, lookup? (buildMap rs) r.key = some r.value) := by
  have hsp := getSecretsFromPayload_ok run unmarshalRawSecret passCode data.data hall
  refine ⟨?_, ?_, ?_⟩
  · simp only [GetSecrets, hperf, hub, hsp]
  · rw [length_buildMap_nodup rs hnd]
    exact hall.length_eq.symm
  · intro r hr
    exact lookup?_buildMap_nodup rs r hnd hr

/-- C10: when several envelopes of one payload decrypt to records sharing a
key, the decryption loop keeps for each key the value of the LAST such
record in list order, and the resulting map has at most as many entries as
there are envelopes. -/
theorem c10_duplicate_keys_last_write_wins
    (run : String → String → Except String String)
    (unmarshalRawSecret : String → Except String RawSecret) (passCode : String)
    (data : SecretResponseBodyData) (rs : List RawSecret)
    (hall : List.Forall₂ (decodesTo run unmarshalRawSecret passCode) data.secrets rs) :
    getSecretsFromPayload run unmarshalRawSecret passCode data = .ok (buildMap rs) ∧
    (buildMap rs).length ≤ data.secrets.length ∧
    (∀ k, lookup? (buildMap rs) k =
      (rs.reverse.find? (fun r => r.key == k)).map (fun r => r.value)) := by
  refine ⟨getSecretsFromPayload_ok run unmarshalRawSecret passCode data hall, ?_,
    fun k => lookup?_buildMap rs k⟩
  rw [hall.length_eq]
  exact length_buildMap_le rs

/-- C9: `BaseURL` returns a defensive copy — the returned reference is a
fresh cell distinct from the client's internal one, it initially holds the
same URL value, and writing any value through the returned reference leaves
the client's internal base URL (the cell `performRequest` reads on every
call) unchanged. -/
theorem c9_baseURL_defensive_copy (s : ClientHeapState) (v : GoURL)
    (h : s.baseURLRef < s.heap.cells.length) :
    (BaseURL s).2 ≠ s.baseURLRef ∧
    readCell (BaseURL s).1.heap (BaseURL s).2 = readCell s.heap s.baseURLRef ∧
    readCell (writeCell (BaseURL s).1.heap (BaseURL s).2 v) s.baseURLRef =
      readCell s.heap s.baseURLRef := by
  obtain ⟨u, hu⟩ : ∃ u, readCell s.heap s.baseURLRef = some u := by
    unfold readCell
    exact ⟨_, List.getElem?_eq_getElem h⟩
  have hb : BaseURL s =
      (⟨⟨s.heap.cells ++ [u]⟩, s.baseURLRef⟩, s.heap.cells.length) := by
    unfold BaseURL
    rw [hu]
  unfold readCell at hu
  refine ⟨?_, ?_, ?_⟩
  · rw [hb]
    intro he
    omega
  · rw [hb]
    unfold readCell
    rw [List.getElem?_concat_length]
    exact hu.symm
  · rw [hb]
    unfold writeCell readCell
    rw [List.getElem?_set_ne (by omega)]
    rw [List.getElem?_append]
    simp [h]

/-- C1 amended: when some envelope's decrypted plaintext is not valid
`{key, value}` JSON (and every earlier envelope decodes), the inner
`getSecretsFromPayload` does fail with a decode-kind `APIError` identifying
the offending plaintext — but `GetSecret` and `GetSecrets` DISCARD that
error: `GetSecrets` returns a success result carrying the nil (empty)
mapping, and `GetSecret` fails with the not-found error instead of the
decode error. -/
theorem c1_amended (run : String → String → Except String String)
    (unmarshalRawSecret : String → Except String RawSecret) (passCode : String)
    (data : SecretResponseBodyData) (es₁ es₂ : List String) (rs₁ : List RawSecret)
    (e pt msg : String)
    (hsecrets : data.secrets = es₁ ++ e :: es₂)
    (hpre : List.Forall₂ (decodesTo run unmarshalRawSecret passCode) es₁ rs₁)
    (hrun : run e passCode = .ok pt)
    (hum : unmarshalRawSecret pt = .error msg) :
    getSecretsFromPayload run unmarshalRawSecret passCode data =
      .error { err := some msg, message := "unable to unmarshal secret payload",
               data := pt } ∧
    (∀ (performRequest : List (String × String) → Except APIError ApiResponse)
       (unmarshalBody : String → Except String SecretResponseBody)
       (request : SecretsRequest) (response : ApiResponse) (body : SecretResponseBody),
       performRequest (SecretsRequest.buildQueryParams request) = .ok response →
       unmarshalBody response.body = .ok body → body.data = data →
       GetSecrets run unmarshalRawSecret passCode performRequest unmarshalBody request =
         .ok { secrets := [], body := response.body }) ∧
    (∀ (performRequest : List (String × String) → Except APIError ApiResponse)
       (unmarshalBody : String → Except String SecretResponseBody)
       (request : SecretRequest) (response : ApiResponse) (body : SecretResponseBody),
       performRequest (SecretRequest.buildQueryParams request) = .ok response →
       unmarshalBody response.body = .ok body → body.data = data →
       GetSecret run unmarshalRawSecret passCode performRequest unmarshalBody request =
         .error { err := none,
                  message := "secret " ++ request.name ++ " for project \x27" ++
                    request.project ++ "\x27 and environment \x27" ++
                    request.environment ++ "\x27 not found",
                  data := "" }) := by
  have hfail : getSecretsFromPayload run unmarshalRawSecret passCode data =
      .error { err := some msg, message := "unable to unmarshal secret payload",
               data := pt } := by
    unfold getSecretsFromPayload
    rw [hsecrets, decryptLoop_append run unmarshalRawSecret passCode hpre (e :: es₂) []]
    simp only [decryptLoop, hrun, hum]
  refine ⟨hfail, ?_, ?_⟩
  · intro performRequest unmarshalBody request response body hperf hub hdata
    subst hdata
    simp only [GetSecrets, hperf, hub, hfail]
  · intro performRequest unmarshalBody request response body hperf hub hdata
    subst hdata
    simp only [GetSecret, hperf, hub, hfail]
    have hl : lookupKV [] request.name = "" := rfl
    rw [if_pos hl]

/-- C3 amended: `NewOnboardbaseClient` performs NO validation of the API
key or the passcode — for any credential strings, empty ones included, it
returns a client storing them verbatim; the only failure mode is the
constant base URL failing to parse.  (Credential checks exist only in the
excluded host-side store validation.) -/
theorem c3_amended (parseURL : String → Except String GoURL)
    (apiKey passcode : String) (u : GoURL)
    (hparse : parseURL (trimSuffix "https://public.onboardbase.com/api/v1/" "/") = .ok u)
    (hscheme : u.scheme ≠ "") :
    NewOnboardbaseClient parseURL apiKey passcode =
      .ok { baseURL := some u, onboardbaseAPIKey := apiKey, verifyTLS := true,
            userAgent := "onboardbase-external-secrets",
            onboardbasePassCode := passcode } := by
  simp only [NewOnboardbaseClient, SetBaseURL, hparse]
  rw [if_neg hscheme]

/-- C8 amended: caller-supplied headers are applied AFTER all defaults, so
they can override every default — the identity headers `user-agent` and
`api_key` included; a default value survives exactly when no caller header
uses its key. -/
theorem c8_amended (method userAgent apiKey : String)
    (callerHeaders : List (String × String)) :
    ("user-agent" ∉ callerHeaders.map Prod.fst →
       lookupKV (buildRequestHeaders method userAgent apiKey callerHeaders)
         "user-agent" = userAgent) ∧
    ("api_key" ∉ callerHeaders.map Prod.fst →
       lookupKV (buildRequestHeaders method userAgent apiKey callerHeaders)
         "api_key" = apiKey) ∧
    (∀ k v, lookupKV (buildRequestHeaders method userAgent apiKey
       (callerHeaders ++ [(k, v)])) k = v) := by
  refine ⟨?_, ?_, ?_⟩
  · intro hmem
    simp only [lookupKV, buildRequestHeaders]
    rw [lookup?_setAll_not_mem _ _ _ hmem]
    rw [lookup?_setKV_ne _ _ _ _ (by decide)]
    rw [lookup?_setKV_self]
    rfl
  · intro hmem
    simp only [lookupKV, buildRequestHeaders]
    rw [lookup?_setAll_not_mem _ _ _ hmem]
    rw [lookup?_setKV_self]
    rfl
  · intro k v
    simp only [lookupKV, buildRequestHeaders]
    rw [lookup?_setAll_last]
    rfl

/-! ## Concrete scenario inputs

Oracles standing for the external libraries in concrete scenarios: a
decryption that returns the envelope text as plaintext, unmarshalling
oracles with fixed outcomes, and a URL parser for the constant base URL. -/

/-- Decryption oracle: every envelope decrypts to itself. -/
def demoRun : String → String → Except String String :=
  fun envelope _ => .ok envelope

/-- Unmarshalling oracle for plaintexts that are not valid JSON. -/
def demoBadUnmarshalRawSecret : String → Except String RawSecret :=
  fun _ => .error "invalid character"

/-- Unmarshalling oracle for a handful of fixed valid plaintexts. -/
def demoGoodUnmarshalRawSecret : String → Except String RawSecret := fun s =>
  if s = "pt1" then .ok { key := "KEY1", value := "v1" }
  else if s = "pt2" then .ok { key := "KEY2", value := "v2" }
  else if s = "dup1" then .ok { key := "K", value := "1" }
  else if s = "dup2" then .ok { key := "K", value := "2" }
  else .error "invalid"

/-- URL parse oracle for the constant base URL. -/
def demoParseURL : String → Except String GoURL :=
  fun _ => .ok { scheme := "https", host := "public.onboardbase.com", path := "/api/v1" }

def demoObject : SecretResponseBodyObject := { title := "", id := "" }

/-- A response payload carrying the given encrypted envelopes. -/
def demoData (secrets : List String) : SecretResponseBodyData :=
  { project := demoObject, environment := demoObject, team := demoObject,
    secrets := secrets }

def demoBody (secrets : List String) : SecretResponseBody :=
  { data := demoData secrets, message := "", status := "" }

/-- HTTP exchange oracle: every request succeeds with the given body. -/
def demoPerform (body : String) : List (String × String) → Except APIError ApiResponse :=
  fun _ => .ok { statusCode := 200, body := body }

/-- Body unmarshalling oracle yielding a payload with the given envelopes. -/
def demoUnmarshalBody (secrets : List String) : String → Except String SecretResponseBody :=
  fun _ => .ok (demoBody secrets)

def demoURL : GoURL :=
  { scheme := "https", host := "public.onboardbase.com", path := "/api/v1" }

def demoURL2 : GoURL := { scheme := "http", host := "evil.example", path := "/" }

def demoState : ClientHeapState := { heap := ⟨[demoURL]⟩, baseURLRef := 0 }

/-! ## Counterexamples and witnesses -/

/-- C1 counterexample: envelope `enc0` decrypts to a plaintext that fails
`RawSecret` unmarshalling, yet `GetSecrets` returns a SUCCESS result (with
the nil mapping) instead of failing the whole call with a decode error. -/
theorem c1_counterexample :
    demoBadUnmarshalRawSecret "enc0" = .error "invalid character" ∧
    GetSecrets demoRun demoBadUnmarshalRawSecret "pc" (demoPerform "raw0")
      (demoUnmarshalBody ["enc0"]) { environment := "env", project := "proj" } =
      .ok { secrets := [], body := "raw0" } :=
  ⟨rfl, rfl⟩

/-- C1 amended, witnessed at a one-envelope payload whose plaintext fails
to unmarshal. -/
theorem c1_amended_witness :
    getSecretsFromPayload demoRun demoBadUnmarshalRawSecret "pw" (demoData ["enc1"]) =
      .error { err := some "invalid character",
               message := "unable to unmarshal secret payload", data := "enc1" } ∧
    GetSecrets demoRun demoBadUnmarshalRawSecret "pw" (demoPerform "rawB")
      (demoUnmarshalBody ["enc1"]) { environment := "e1", project := "p1" } =
      .ok { secrets := [], body := "rawB" } ∧
    GetSecret demoRun demoBadUnmarshalRawSecret "pw" (demoPerform "rawB")
      (demoUnmarshalBody ["enc1"]) { environment := "e1", project := "p1", name := "DB" } =
      .error { err := none,
               message := "secret DB for project \x27p1\x27 and environment \x27e1\x27 not found",
               data := "" } := by
  have h := c1_amended demoRun demoBadUnmarshalRawSecret "pw" (demoData ["enc1"])
    [] [] [] "enc1" "enc1" "invalid character" rfl List.Forall₂.nil rfl rfl
  exact ⟨h.1,
    h.2.1 (demoPerform "rawB") (demoUnmarshalBody ["enc1"])
      { environment := "e1", project := "p1" } { statusCode := 200, body := "rawB" }
      (demoBody ["enc1"]) rfl rfl rfl,
    h.2.2 (demoPerform "rawB") (demoUnmarshalBody ["enc1"])
      { environment := "e1", project := "p1", name := "DB" }
      { statusCode := 200, body := "rawB" } (demoBody ["enc1"]) rfl rfl rfl⟩

/-- C2 witness: empty decrypted scope, requested name `DBURL` absent —
`GetSecret` fails with the not-found error naming secret, project and
environment. -/
theorem c2_witness :
    GetSecret demoRun demoBadUnmarshalRawSecret "pw2" (demoPerform "rawC")
      (demoUnmarshalBody []) { environment := "dev", project := "app", name := "DBURL" } =
      .error { err := none,
               message := "secret DBURL for project \x27app\x27 and environment \x27dev\x27 not found",
               data := "" } :=
  (c2_getSecret_notFound demoRun demoBadUnmarshalRawSecret "pw2" (demoPerform "rawC")
    (demoUnmarshalBody []) { environment := "dev", project := "app", name := "DBURL" }).1
    { statusCode := 200, body := "rawC" } (demoBody []) [] rfl rfl rfl rfl

/-- C3 counterexample: constructing a client with an EMPTY API key and an
EMPTY passcode succeeds — no validation happens before a network call
could be attempted. -/
theorem c3_counterexample :
    NewOnboardbaseClient demoParseURL "" "" =
      .ok { baseURL := some demoURL, onboardbaseAPIKey := "", verifyTLS := true,
            userAgent := "onboardbase-external-secrets", onboardbasePassCode := "" } :=
  rfl

/-- C3 amended, witnessed at non-empty credentials. -/
theorem c3_amended_witness :
    NewOnboardbaseClient demoParseURL "key1" "pass1" =
      .ok { baseURL := some demoURL, onboardbaseAPIKey := "key1", verifyTLS := true,
            userAgent := "onboardbase-external-secrets",
            onboardbasePassCode := "pass1" } :=
  c3_amended demoParseURL "key1" "pass1" demoURL rfl (by decide)

/-- C5 witness: HTTP 500 with a non-JSON content type — the error carries
only the status code and byte length, and two different 2-byte bodies give
the identical error. -/
theorem c5_witness :
    classifyResponse (fun _ => .error "no json") 500 "text/html" "AB" =
      .error { err := some "500 status code; 2 bytes",
               message := "unable to load response", data := "" } ∧
    classifyResponse (fun _ => .error "no json") 500 "text/html" "AB" =
      classifyResponse (fun _ => .error "no json") 500 "text/html" "CD" :=
  c5_non_json_error_is_opaque (fun _ => .error "no json") 500 "text/html" "AB" "CD"
    (by decide) (by decide) rfl

/-- C6 witness: non-empty project and environment appear under their keys;
an empty environment is omitted entirely. -/
theorem c6_witness :
    lookup? (SecretRequest.buildQueryParams
      { environment := "dev6", project := "app6", name := "N6" }) "project" = some "app6" ∧
    lookup? (SecretRequest.buildQueryParams
      { environment := "dev6", project := "app6", name := "N6" }) "environment" = some "dev6" ∧
    "environment" ∉ (SecretsRequest.buildQueryParams
      { environment := "", project := "p6" }).map Prod.fst := by
  have h := c6_buildQueryParams_omits_empty
    { environment := "dev6", project := "app6", name := "N6" }
    { environment := "", project := "p6" }
  exact ⟨h.1.2.1 (by decide), h.1.2.2.2.1 (by decide), h.2.2.2.1 rfl⟩

/-- C7 witness: two envelopes with distinct keys produce a success result
with exactly two correctly mapped entries. -/
theorem c7_witness :
    GetSecrets demoRun demoGoodUnmarshalRawSecret "pc7" (demoPerform "raw7")
      (demoUnmarshalBody ["pt1", "pt2"]) { environment := "e7", project := "p7" } =
      .ok { secrets := buildMap [{ key := "KEY1", value := "v1" },
              { key := "KEY2", value := "v2" }], body := "raw7" } ∧
    (buildMap [{ key := "KEY1", value := "v1" },
      { key := "KEY2", value := "v2" }]).length = 2 ∧
    lookup? (buildMap [{ key := "KEY1", value := "v1" },
      { key := "KEY2", value := "v2" }]) "KEY1" = some "v1" := by
  have h := c7_getSecrets_exact_mapping demoRun demoGoodUnmarshalRawSecret "pc7"
    (demoPerform "raw7") (demoUnmarshalBody ["pt1", "pt2"])
    { environment := "e7", project := "p7" } { statusCode := 200, body := "raw7" }
    (demoBody ["pt1", "pt2"])
    [{ key := "KEY1", value := "v1" }, { key := "KEY2", value := "v2" }]
    rfl rfl
    (List.Forall₂.cons ⟨"pt1", rfl, rfl⟩
      (List.Forall₂.cons ⟨"pt2", rfl, rfl⟩ List.Forall₂.nil))
    (by decide)
  exact ⟨h.1, h.2.1, h.2.2 { key := "KEY1", value := "v1" } (by decide)⟩

/-- C8 counterexample: caller headers named `user-agent` and `api_key` DO
override the identity defaults. -/
theorem c8_counterexample :
    lookupKV (buildRequestHeaders "GET" "onboardbase-external-secrets" "real-key"
      [("user-agent", "spoofed"), ("api_key", "attacker-key")]) "user-agent" = "spoofed" ∧
    lookupKV (buildRequestHeaders "GET" "onboardbase-external-secrets" "real-key"
      [("user-agent", "spoofed"), ("api_key", "attacker-key")]) "api_key" = "attacker-key" ∧
    ("spoofed" : String) ≠ "onboardbase-external-secrets" ∧
    ("attacker-key" : String) ≠ "real-key" :=
  ⟨rfl, rfl, by decide, by decide⟩

/-- C8 amended, witnessed: identity defaults survive when no caller header
names them, and a caller header (here `accept`) overrides a default. -/
theorem c8_amended_witness :
    lookupKV (buildRequestHeaders "PUT" "agent7" "key7" [("x-trace", "on")])
      "user-agent" = "agent7" ∧
    lookupKV (buildRequestHeaders "PUT" "agent7" "key7" [("x-trace", "on")])
      "api_key" = "key7" ∧
    lookupKV (buildRequestHeaders "PUT" "agent7" "key7"
      ([("x-trace", "on")] ++ [("accept", "text/plain")])) "accept" = "text/plain" := by
  have h := c8_amended "PUT" "agent7" "key7" [("x-trace", "on")]
  exact ⟨h.1 (by decide), h.2.1 (by decide), h.2.2 "accept" "text/plain"⟩

/-- C9 witness: on a one-cell heap, the reference returned by `BaseURL` is
fresh, holds the same URL, and writing a different URL through it leaves
the client's cell unchanged. -/
theorem c9_witness :
    (BaseURL demoState).2 ≠ demoState.baseURLRef ∧
    readCell (BaseURL demoState).1.heap (BaseURL demoState).2 =
      readCell demoState.heap demoState.baseURLRef ∧
    readCell (writeCell (BaseURL demoState).1.heap (BaseURL demoState).2 demoURL2)
      demoState.baseURLRef = readCell demoState.heap demoState.baseURLRef :=
  c9_baseURL_defensive_copy demoState demoURL2 (by decide)

/-- C10 witness: two envelopes whose records share the key `K` — the later
value `2` wins and the map has at most two entries. -/
theorem c10_witness :
    getSecretsFromPayload demoRun demoGoodUnmarshalRawSecret "pcX"
      (demoData ["dup1", "dup2"]) =
      .ok (buildMap [{ key := "K", value := "1" }, { key := "K", value := "2" }]) ∧
    (buildMap [{ key := "K", value := "1" }, { key := "K", value := "2" }]).length ≤ 2 ∧
    lookup? (buildMap [{ key := "K", value := "1" }, { key := "K", value := "2" }]) "K" =
      some "2" := by
  have h := c10_duplicate_keys_last_write_wins demoRun demoGoodUnmarshalRawSecret "pcX"
    (demoData ["dup1", "dup2"])
    [{ key := "K", value := "1" }, { key := "K", value := "2" }]
    (List.Forall₂.cons ⟨"dup1", rfl, rfl⟩
      (List.Forall₂.cons ⟨"dup2", rfl, rfl⟩ List.Forall₂.nil))
  exact ⟨h.1, h.2.1, (h.2.2 "K").trans (by decide)⟩

end Onboardbase
